import Mathlib

/-!
Verification development for the `stocks-tracker` market-data engine
(`market_tracker/data.py`, `market_tracker/query_logic.py`,
`market_tracker/api.py`), shallowly embedded in Lean.

Modelling conventions:
* A calendar day is a `Nat` in `yyyymmdd` encoding (chronological order on
  valid dates agrees with the numeric order).
* Floating-point columns (`Close`, `MarketCap`, `Multiplier`) are modelled
  as `ℚ`; nullable columns as `Option`.  The `.cast(pl.Float64)` in
  `data.py` is the identity in this model.
* A polars null arising from an operation on a null operand is `none`.
-/

namespace MarketTracker

/-- A calendar day, encoded as `yyyymmdd`. -/
abbrev Date := Nat

/-- A logical row of the unified 4-column schema
`{Date, Ticker, Close, MarketCap}` (`data.py` lines 17/49).
Nullable columns are `Option`; `Date` is always populated. -/
structure Row where
  date : Date
  ticker : Option String
  close : Option ℚ
  marketCap : Option ℚ
deriving DecidableEq, Repr

/-- Split a character list into the groups between `-` separators. -/
def splitDash : List Char → List (List Char)
  | [] => [[]]
  | c :: rest =>
    match splitDash rest with
    | [] => [[]]
    | g :: gs => if c = '-' then [] :: g :: gs else (c :: g) :: gs

/-- Read a group of decimal digits as a number, `none` on a non-digit. -/
def parseNatDigits (cs : List Char) : Option Nat :=
  cs.foldl
    (fun acc c =>
      match acc with
      | some n => if 48 ≤ c.toNat ∧ c.toNat ≤ 57 then some (n * 10 + (c.toNat - 48)) else none
      | none => none)
    (some 0)

/-- Model of `datetime.strptime(s, "%Y-%m-%d")` / polars
`str.strptime(pl.Datetime, "%Y-%m-%d")` (`data.py` line 53): a strict
`YYYY-MM-DD` parse, `none` on failure. -/
def parseDate (s : String) : Option Date :=
  match splitDash s.toList with
  | [y, m, d] =>
    if y.length = 4 ∧ m.length = 2 ∧ d.length = 2 then
      match parseNatDigits y, parseNatDigits m, parseNatDigits d with
      | some yn, some mn, some dn =>
        if 1 ≤ mn ∧ mn ≤ 12 ∧ 1 ≤ dn ∧ dn ≤ 31 then
          some (yn * 10000 + mn * 100 + dn)
        else none
      | _, _, _ => none
    else none
  | _ => none

/-! Snapshot (parquet) source — `data.py` `ParquetFiles` (lines 6-35) -/

/-- A raw row of a parquet file.  Parquet data is binary-typed, so the
`Date` column arrives as a calendar type already (the
`cast(pl.Datetime)` on line 21 succeeds); the other columns hold the
values the file stores, `none` for a stored null. -/
structure ParquetRawRow where
  date : Date
  ticker : Option String
  close : Option ℚ
  marketCap : Option ℚ
deriving DecidableEq, Repr

/-- The parquet source: the `scan_parquet` glob over all files.  The
three `has*` flags record whether the scanned files' common schema has
the corresponding column; `_enforce_schema` (lines 26-35) fills a
missing column with null for every row. -/
structure ParquetSource where
  hasTicker : Bool
  hasClose : Bool
  hasMarketCap : Bool
  rows : List ParquetRawRow
deriving Repr

/-- Rows the parquet source contributes after `_enforce_schema`:
columns absent from the files' schema are all-null. -/
def ParquetSource.collectRows (src : ParquetSource) : List Row :=
  src.rows.map fun r =>
    { date := r.date
      ticker := if src.hasTicker then r.ticker else none
      close := if src.hasClose then r.close else none
      marketCap := if src.hasMarketCap then r.marketCap else none }

/-! Row (CSV) source — `data.py` `CsvFiles` (lines 38-67) -/

/-- A raw row of a CSV file: the `Date` cell is an unparsed string
(parsed later by `str.strptime`); the other cells hold the file's
content, `none` for an empty cell. -/
structure CsvRawRow where
  dateStr : String
  ticker : Option String
  close : Option ℚ
  marketCap : Option ℚ
deriving DecidableEq, Repr

/-- One CSV file: its base name (stem) and its data rows. -/
structure CsvFile where
  stem : String
  rows : List CsvRawRow
deriving DecidableEq, Repr

/-- The CSV source: the `scan_csv` glob over all files directly under
the root.  As with parquet, the `has*` flags record which of the
schema columns the files provide; `_enforce_schema` (lines 58-67)
fills missing ones with null. -/
structure CsvSource where
  hasTicker : Bool
  hasClose : Bool
  hasMarketCap : Bool
  files : List CsvFile
deriving Repr

/-- The unified row obtained from one raw CSV row once its date string
parsed to `d`: content for columns the files provide, null otherwise.
Nothing here consults the file name. -/
def CsvSource.rowOfRaw (src : CsvSource) (d : Date) (r : CsvRawRow) : Row :=
  { date := d
    ticker := if src.hasTicker then r.ticker else none
    close := if src.hasClose then r.close else none
    marketCap := if src.hasMarketCap then r.marketCap else none }

/-- Strict `strptime` over a file's rows: one unparsable date fails the
whole scan (`data.py` line 53, strict by default). -/
def CsvSource.parseRows (src : CsvSource) : List CsvRawRow → Option (List Row)
  | [] => some []
  | r :: rest =>
    match parseDate r.dateStr, src.parseRows rest with
    | some d, some out => some (src.rowOfRaw d r :: out)
    | _, _ => none

/-- The unified rows one CSV file contributes; `none` when any of its
date strings fails to parse. -/
def CsvSource.fileRows (src : CsvSource) (f : CsvFile) : Option (List Row) :=
  src.parseRows f.rows

/-- Concatenate the rows of a list of CSV files; `none` when any file
has an unparsable date. -/
def CsvSource.filesRows (src : CsvSource) : List CsvFile → Option (List Row)
  | [] => some []
  | f :: rest =>
    match src.fileRows f, src.filesRows rest with
    | some a, some b => some (a ++ b)
    | _, _ => none

/-- All rows of the CSV source, in file order; `none` when any file has
an unparsable date (the error fails the whole collect). -/
def CsvSource.collectRows (src : CsvSource) : Option (List Row) :=
  src.filesRows src.files

/-! Currency multiplier table — `data.py` `MarketData.currencies`
(lines 114-134): the YAML's `currencies` mapping as `(Ticker, Multiplier)`
rows.  YAML mapping keys are distinct, so tickers are unique in the table. -/

/-- The currency table: ticker → multiplier rows. -/
abbrev CurrencyTable := List (String × ℚ)

/-- The multiplier the left join on `Ticker` (`data.py` line 100)
attaches to a row: the table entry for the row's ticker, `none` when
the ticker is null (polars joins do not match null keys) or absent
from the table. -/
def lookupMult (tbl : CurrencyTable) : Option String → Option ℚ
  | none => none
  | some t => (tbl.find? fun p => p.1 = t).map Prod.snd

/-- The `MarketCap` adjustment (`data.py` lines 101-107):
`when(Multiplier.is_not_null()).then(Close * Multiplier).otherwise(MarketCap)`.
A null `Close` times a multiplier is null; the `cast(pl.Float64)` is the
identity here. -/
def adjustRow (tbl : CurrencyTable) (r : Row) : Row :=
  match lookupMult tbl r.ticker with
  | some m => { r with marketCap := r.close.map (· * m) }
  | none => r

/-! Dedup and sort — `data.py` lines 108-110 -/

/-- Insert a row into a date-descending list, keeping it descending. -/
def insertDesc (r : Row) : List Row → List Row
  | [] => [r]
  | s :: rest => if r.date ≤ s.date then s :: insertDesc r rest else r :: s :: rest

/-- Model of `sort(["Date"], descending=True)` (`data.py` line 109): some
arrangement of the rows that is descending in `Date` (order within a
date is unspecified in polars; this model fixes one). -/
def sortDesc (l : List Row) : List Row := l.foldr insertDesc []

/-- The merged dataset `MarketData.df` (`data.py` lines 93-111), as a
function of the already-collected source rows (`raw`, parquet rows
first then CSV rows, per the `pl.concat` on lines 93-96) and the
currency table: left-join-adjust `MarketCap`, deduplicate on the full
`(Date, Ticker, MarketCap, Close)` tuple (`unique(subset=...)`, line
108 — the tuple is the whole `Row`, and the joined `Multiplier` column
is a function of `Ticker`, so deduplicating whole rows is the same),
sort by date descending.  The final `select` (line 110) only reorders
columns, which `dfSelectCols` records separately. -/
def buildRows (raw : List Row) (tbl : CurrencyTable) : List Row :=
  sortDesc ((raw.map (adjustRow tbl)).dedup)

/-- The canonical schema list `["Date", "Ticker", "Close", "MarketCap"]`
(`data.py` lines 17 and 49). -/
def schemaCols : List String := ["Date", "Ticker", "Close", "MarketCap"]

/-- The column order of the final projection
`.select(["Date", "Ticker", "MarketCap", "Close"])` (`data.py` line 110). -/
def dfSelectCols : List String := ["Date", "Ticker", "MarketCap", "Close"]

/-! Basic lemmas about the build pipeline -/

theorem insertDesc_perm (r : Row) (l : List Row) : List.Perm (insertDesc r l) (r :: l) := by
  induction l with
  | nil => simp [insertDesc]
  | cons s rest ih =>
    by_cases h : r.date ≤ s.date
    · simp only [insertDesc, if_pos h]
      exact (ih.cons s).trans (List.Perm.swap r s rest)
    · simp [insertDesc, if_neg h]

theorem sortDesc_perm (l : List Row) : List.Perm (sortDesc l) l := by
  induction l with
  | nil => rfl
  | cons x xs ih => exact (insertDesc_perm x (sortDesc xs)).trans (ih.cons x)

theorem pairwise_insertDesc (r : Row) (l : List Row)
    (h : l.Pairwise fun a b => b.date ≤ a.date) :
    (insertDesc r l).Pairwise fun a b => b.date ≤ a.date := by
  induction l with
  | nil => simp [insertDesc]
  | cons s rest ih =>
    rcases List.pairwise_cons.mp h with ⟨hs, hrest⟩
    by_cases hd : r.date ≤ s.date
    · simp only [insertDesc, if_pos hd]
      refine List.pairwise_cons.mpr ⟨?_, ih hrest⟩
      intro b hb
      rcases List.mem_cons.mp ((insertDesc_perm r rest).mem_iff.mp hb) with rfl | hb
      · exact hd
      · exact hs b hb
    · simp only [insertDesc, if_neg hd]
      push_neg at hd
      refine List.pairwise_cons.mpr ⟨?_, h⟩
      intro b hb
      rcases List.mem_cons.mp hb with rfl | hb
      · exact le_of_lt hd
      · exact le_trans (hs b hb) (le_of_lt hd)

theorem pairwise_sortDesc (l : List Row) :
    (sortDesc l).Pairwise fun a b => b.date ≤ a.date := by
  induction l with
  | nil => simp [sortDesc]
  | cons x xs ih => exact pairwise_insertDesc x (sortDesc xs) ih

theorem mem_buildRows {raw : List Row} {tbl : CurrencyTable} {r : Row} :
    r ∈ buildRows raw tbl ↔ r ∈ raw.map (adjustRow tbl) := by
  unfold buildRows
  rw [(sortDesc_perm _).mem_iff, List.mem_dedup]

theorem adjustRow_ticker (tbl : CurrencyTable) (r : Row) :
    (adjustRow tbl r).ticker = r.ticker := by
  unfold adjustRow
  cases lookupMult tbl r.ticker <;> rfl

theorem adjustRow_of_lookup_none (tbl : CurrencyTable) (r : Row)
    (h : lookupMult tbl r.ticker = none) : adjustRow tbl r = r := by
  unfold adjustRow
  rw [h]

theorem adjustRow_of_lookup_some (tbl : CurrencyTable) (r : Row) (m : ℚ)
    (h : lookupMult tbl r.ticker = some m) :
    adjustRow tbl r = { r with marketCap := r.close.map (· * m) } := by
  unfold adjustRow
  rw [h]

/-! Query service — `query_logic.py` and `api.py`.
Each query runs against the merged dataset's rows (`Tickers.df`), which
the functions here take as an explicit `rows` argument. -/

/-- Model of `get_prices` (`query_logic.py` lines 18-35): filter on exact ticker
match and the inclusive date range, project to `(Date, Close)`.
A null `Ticker` never equals the argument (polars `==` on null is null,
which the filter drops). -/
def get_prices (rows : List Row) (ticker : String) (startDate endDate : Date) :
    List (Date × Option ℚ) :=
  (rows.filter fun r =>
      decide (r.ticker = some ticker ∧ startDate ≤ r.date ∧ r.date ≤ endDate)).map
    fun r => (r.date, r.close)

/-- Model of `get_date_range` (`query_logic.py` lines 38-51): the dataset-wide
minimum and maximum `Date`.  On an empty dataset polars `min`/`max` are
null and the subsequent `strftime` on `None` raises; that failure is
`none` here. -/
def get_date_range (rows : List Row) : Option (Date × Date) :=
  match rows with
  | [] => none
  | r :: rest =>
    some (rest.foldl (fun a s => min a s.date) r.date,
          rest.foldl (fun a s => max a s.date) r.date)

/-- The rows of one ticker: `Tickers.df.filter(pl.col("Ticker") == t)`. -/
def tickerRows (rows : List Row) (t : String) : List Row :=
  rows.filter fun r => decide (r.ticker = some t)

/-- The inner join on `Date` of the two filtered frames
(`query_logic.py` lines 62-68 / `api.py` lines 92-98): every pair of a
left row and a right row sharing a date. -/
def ratioJoin (rows : List Row) (t1 t2 : String) : List (Row × Row) :=
  (tickerRows rows t1).foldr
    (fun r1 acc =>
      ((tickerRows rows t2).filter fun r2 => decide (r2.date = r1.date)).map
          (fun r2 => (r1, r2)) ++ acc)
    []

/-- Model of polars `.round(3)`: round to 3 decimal places. -/
def roundTo3 (q : ℚ) : ℚ := ((round (q * 1000) : ℤ) : ℚ) / 1000

/-- The per-pair ratio column `(x / y).round(3)`.  A null operand
propagates as null; a zero denominator yields a non-numeric value in
the engine (float `inf`/`NaN`), modelled as `none` — no claim touches
that branch. -/
def ratioOf (a b : Option ℚ) : Option ℚ :=
  match a, b with
  | some x, some y => if y = 0 then none else some (roundTo3 (x / y))
  | _, _ => none

/-- Model of `get_ratio` as implemented in `query_logic.py` (lines 54-82): join
on date, filter to the inclusive range, ratio of the **Close** columns
(`Close / Close_right`), rounded to 3 decimals. -/
def get_ratio (rows : List Row) (t1 t2 : String) (startDate endDate : Date) :
    List (Date × Option ℚ) :=
  ((ratioJoin rows t1 t2).filter fun p =>
      decide (startDate ≤ p.1.date ∧ p.1.date ≤ endDate)).map
    fun p => (p.1.date, ratioOf p.1.close p.2.close)

/-- Model of `get_ratio` as implemented in `api.py` (lines 78-113): identical
join and range filter, but the ratio of the **MarketCap** columns
(`MarketCap / MarketCap_right`), rounded to 3 decimals. -/
def get_ratio_api (rows : List Row) (t1 t2 : String) (startDate endDate : Date) :
    List (Date × Option ℚ) :=
  ((ratioJoin rows t1 t2).filter fun p =>
      decide (startDate ≤ p.1.date ∧ p.1.date ≤ endDate)).map
    fun p => (p.1.date, ratioOf p.1.marketCap p.2.marketCap)

/-! Build lifecycle — `data.py` `MarketData.df` (lines 82-112).

`df` is a cached **lazy** frame: on first access it eagerly loads the
currency YAML (`self.currencies`, raising on a missing or malformed
resource before anything is cached) and assembles the lazy query plan,
which it stores in `self._lazy_frame`.  Row-level work — the CSV
`strptime` included — only runs when a query `collect`s the plan, i.e.
after the plan has been cached. -/

/-- The environment a build runs in: the two source directories and the
currency configuration resource (`none` = missing or malformed YAML). -/
structure Env where
  parquet : ParquetSource
  csv : CsvSource
  config : Option CurrencyTable

/-- The cached lazy plan: the sources it will scan and the
already-loaded currency table. -/
structure Plan where
  parquet : ParquetSource
  csv : CsvSource
  table : CurrencyTable

/-- The eager part of the `df` property: load the currency table and
assemble the plan.  Fails (before caching anything) when the
configuration resource is missing or malformed. -/
def buildPlan (env : Env) : Except String Plan :=
  match env.config with
  | none => Except.error "ConfigurationError"
  | some tbl => Except.ok ⟨env.parquet, env.csv, tbl⟩

/-- Running `collect` on the cached plan: scan both sources (re-reading and
re-parsing the files each time) and run the merge pipeline.  A CSV date
that fails `strptime` fails the collect. -/
def Plan.collect (p : Plan) : Except String (List Row) :=
  match p.csv.collectRows with
  | none => Except.error "SourceParseError"
  | some csvRows => Except.ok (buildRows (p.parquet.collectRows ++ csvRows) p.table)

/-- One query against `Tickers`: if `_lazy_frame` is unset, run the
eager build (caching the plan only when it succeeds), then collect.
Returns the new cache state and the query's outcome. -/
def queryStep (env : Env) (cache : Option Plan) :
    Option Plan × Except String (List Row) :=
  match cache with
  | some p => (some p, p.collect)
  | none =>
    match buildPlan env with
    | Except.error e => (none, Except.error e)
    | Except.ok p => (some p, p.collect)

theorem adjustRow_close (tbl : CurrencyTable) (r : Row) :
    (adjustRow tbl r).close = r.close := by
  unfold adjustRow
  cases lookupMult tbl r.ticker <;> rfl

/-! Claim theorems -/

/-- C1: every row of the merged dataset whose ticker has a
multiplier entry has `marketCap = close * multiplier` whenever `close`
is non-null (the derived value wins over whatever the source supplied);
a row whose ticker has no entry is a source row passed through verbatim,
`marketCap` included. -/
theorem c1_marketCap_multiplier_rule (raw : List Row) (tbl : CurrencyTable) (r : Row)
    (hr : r ∈ buildRows raw tbl) :
    (∀ m c, lookupMult tbl r.ticker = some m → r.close = some c →
      r.marketCap = some (c * m)) ∧
    (lookupMult tbl r.ticker = none → r ∈ raw) := by
  rcases List.mem_map.mp (mem_buildRows.mp hr) with ⟨s, hs, rfl⟩
  constructor
  · intro m c hm hc
    rw [adjustRow_ticker] at hm
    rw [adjustRow_close] at hc
    rw [adjustRow_of_lookup_some tbl s m hm]
    simp [hc]
  · intro hn
    rw [adjustRow_ticker] at hn
    rw [adjustRow_of_lookup_none tbl s hn]
    exact hs

/-- Witness for C1: a currency row `(2024-01-02, EURUSD, close=2, mcap=7)`
with multiplier 3 surfaces with `marketCap = 2 * 3`; the row of the
unlisted ticker `NOMULT` passes through as a verbatim source row. -/
theorem c1_witness :
    (adjustRow [("EURUSD", (3 : ℚ))] ⟨20240102, some "EURUSD", some 2, some 7⟩).marketCap
        = some (2 * 3) ∧
    (⟨20240103, some "NOMULT", some 5, some 9⟩ : Row) ∈
      [(⟨20240102, some "EURUSD", some 2, some 7⟩ : Row),
       ⟨20240103, some "NOMULT", some 5, some 9⟩] :=
  ⟨(c1_marketCap_multiplier_rule
      [⟨20240102, some "EURUSD", some 2, some 7⟩, ⟨20240103, some "NOMULT", some 5, some 9⟩]
      [("EURUSD", 3)] _
      (mem_buildRows.mpr
        (List.mem_map_of_mem _ (List.mem_cons_self _ _)))).1 3 2 (by decide) (by decide),
   (c1_marketCap_multiplier_rule
      [⟨20240102, some "EURUSD", some 2, some 7⟩, ⟨20240103, some "NOMULT", some 5, some 9⟩]
      [("EURUSD", 3)] ⟨20240103, some "NOMULT", some 5, some 9⟩
      (mem_buildRows.mpr
        (List.mem_map.mpr ⟨⟨20240103, some "NOMULT", some 5, some 9⟩, by decide, rfl⟩))).2
     (by decide)⟩

/-- C2: deduplication collapses rows exactly when they agree on the
whole `(Date, Ticker, MarketCap, Close)` tuple — each distinct adjusted
row survives with multiplicity exactly one, so two rows sharing
`(date, ticker)` but differing in `close` or `marketCap` are both
retained. -/
theorem c2_dedup_on_full_tuple (raw : List Row) (tbl : CurrencyTable) (r : Row) :
    (buildRows raw tbl).count r =
      if r ∈ raw.map (adjustRow tbl) then 1 else 0 := by
  unfold buildRows
  rw [(sortDesc_perm _).count_eq]
  exact List.count_dedup _ r

/-- C5 (amended): the merged dataset is sorted by date descending
and projected to exactly the four canonical columns, but in the order
`Date, Ticker, MarketCap, Close` (`data.py` line 110), not the canonical
`Date, Ticker, Close, MarketCap`. -/
theorem c5_sorted_desc_and_columns (raw : List Row) (tbl : CurrencyTable) :
    (buildRows raw tbl).Pairwise (fun a b => b.date ≤ a.date) ∧
    dfSelectCols.Perm schemaCols ∧
    dfSelectCols = ["Date", "Ticker", "MarketCap", "Close"] :=
  ⟨pairwise_sortDesc _, by decide, rfl⟩

/-- Counterexample for C5: the final projection's column order is not
the canonical `Date, Ticker, Close, MarketCap` the claim states. -/
theorem c5_counterexample : dfSelectCols ≠ ["Date", "Ticker", "Close", "MarketCap"] := by
  decide

/-- C10: a source row whose ticker has a multiplier entry but whose
`close` is null still takes the multiplier branch: the null product
replaces the source-supplied `marketCap`, so the row surfaces in the
merged dataset with a null `marketCap`. -/
theorem c10_null_close_multiplier (raw : List Row) (tbl : CurrencyTable) (s : Row) (m : ℚ)
    (hs : s ∈ raw) (hm : lookupMult tbl s.ticker = some m) (hc : s.close = none) :
    adjustRow tbl s ∈ buildRows raw tbl ∧ (adjustRow tbl s).marketCap = none := by
  refine ⟨mem_buildRows.mpr (List.mem_map_of_mem _ hs), ?_⟩
  rw [adjustRow_of_lookup_some tbl s m hm]
  simp [hc]

/-- C6: with both bounds supplied, `get_prices` returns exactly the
`(date, close)` pairs of the rows whose ticker matches exactly and
whose date lies in the inclusive range — nothing else appears. -/
theorem c6_get_prices_exact (rows : List Row) (t : String) (s e : Date)
    (d : Date) (c : Option ℚ) :
    (d, c) ∈ get_prices rows t s e ↔
      ∃ r, r ∈ rows ∧ r.ticker = some t ∧ s ≤ r.date ∧ r.date ≤ e ∧
        r.date = d ∧ r.close = c := by
  unfold get_prices
  simp only [List.mem_map, List.mem_filter, decide_eq_true_eq, Prod.mk.injEq]
  constructor
  · rintro ⟨r, ⟨hr, ht, hs, he⟩, hd, hc⟩
    exact ⟨r, hr, ht, hs, he, hd, hc⟩
  · rintro ⟨r, hr, ht, hs, he, hd, hc⟩
    exact ⟨r, ⟨hr, ht, hs, he⟩, hd, hc⟩

theorem foldl_min_le_init (l : List Nat) : ∀ a : Nat, l.foldl min a ≤ a := by
  induction l with
  | nil => intro a; simp
  | cons x xs ih => intro a; exact le_trans (ih (min a x)) (min_le_left a x)

theorem foldl_min_le_mem (l : List Nat) : ∀ (a b : Nat), b ∈ l → l.foldl min a ≤ b := by
  induction l with
  | nil => intro a b hb; simp at hb
  | cons x xs ih =>
    intro a b hb
    rcases List.mem_cons.mp hb with rfl | hb
    · exact le_trans (foldl_min_le_init xs (min a b)) (min_le_right a b)
    · exact ih (min a x) b hb

theorem foldl_min_mem (l : List Nat) : ∀ a : Nat, l.foldl min a = a ∨ l.foldl min a ∈ l := by
  induction l with
  | nil => intro a; exact Or.inl rfl
  | cons x xs ih =>
    intro a
    rcases ih (min a x) with h | h
    · by_cases hax : a ≤ x
      · left
        rw [List.foldl_cons, h, min_eq_left hax]
      · right
        rw [List.foldl_cons, h, min_eq_right (le_of_not_le hax)]
        exact List.mem_cons_self x xs
    · right
      exact List.mem_cons_of_mem x h

theorem foldl_max_init_le (l : List Nat) : ∀ a : Nat, a ≤ l.foldl max a := by
  induction l with
  | nil => intro a; simp
  | cons x xs ih => intro a; exact le_trans (le_max_left a x) (ih (max a x))

theorem foldl_max_mem_le (l : List Nat) : ∀ (a b : Nat), b ∈ l → b ≤ l.foldl max a := by
  induction l with
  | nil => intro a b hb; simp at hb
  | cons x xs ih =>
    intro a b hb
    rcases List.mem_cons.mp hb with rfl | hb
    · exact le_trans (le_max_right a b) (foldl_max_init_le xs (max a b))
    · exact ih (max a x) b hb

theorem foldl_max_mem (l : List Nat) : ∀ a : Nat, l.foldl max a = a ∨ l.foldl max a ∈ l := by
  induction l with
  | nil => intro a; exact Or.inl rfl
  | cons x xs ih =>
    intro a
    rcases ih (max a x) with h | h
    · by_cases hax : x ≤ a
      · left
        rw [List.foldl_cons, h, max_eq_left hax]
      · right
        rw [List.foldl_cons, h, max_eq_right (le_of_not_le hax)]
        exact List.mem_cons_self x xs
    · right
      exact List.mem_cons_of_mem x h

/-- C7: on a non-empty dataset `get_date_range` returns
`min ≤ max`, the true minimum and maximum date over all rows; on an
empty dataset it fails (polars yields null min/max and the `strftime`
on `None` raises) instead of returning sentinel dates. -/
theorem c7_get_date_range (rows : List Row) :
    (rows ≠ [] → ∃ mn mx, get_date_range rows = some (mn, mx) ∧ mn ≤ mx ∧
      (∀ r ∈ rows, mn ≤ r.date ∧ r.date ≤ mx) ∧
      (∃ r ∈ rows, r.date = mn) ∧ (∃ r ∈ rows, r.date = mx)) ∧
    (rows = [] → get_date_range rows = none) := by
  constructor
  · intro hne
    match rows with
    | [] => exact absurd rfl hne
    | r :: rest =>
      have hfm : rest.foldl (fun a s => min a s.date) r.date
          = (rest.map Row.date).foldl min r.date := (List.foldl_map _ _ _ _).symm
      have hfM : rest.foldl (fun a s => max a s.date) r.date
          = (rest.map Row.date).foldl max r.date := (List.foldl_map _ _ _ _).symm
      refine ⟨_, _, rfl, ?_, ?_, ?_, ?_⟩
      · rw [hfm, hfM]
        exact le_trans (foldl_min_le_init _ _) (foldl_max_init_le _ _)
      · intro r' hr'
        rw [hfm, hfM]
        rcases List.mem_cons.mp hr' with rfl | hr'
        · exact ⟨foldl_min_le_init _ _, foldl_max_init_le _ _⟩
        · exact ⟨foldl_min_le_mem _ _ _ (List.mem_map_of_mem _ hr'),
            foldl_max_mem_le _ _ _ (List.mem_map_of_mem _ hr')⟩
      · rw [hfm]
        rcases foldl_min_mem (rest.map Row.date) r.date with h | h
        · exact ⟨r, List.mem_cons_self r rest, h.symm⟩
        · rcases List.mem_map.mp h with ⟨r', hr', hd⟩
          exact ⟨r', List.mem_cons_of_mem r hr', hd⟩
      · rw [hfM]
        rcases foldl_max_mem (rest.map Row.date) r.date with h | h
        · exact ⟨r, List.mem_cons_self r rest, h.symm⟩
        · rcases List.mem_map.mp h with ⟨r', hr', hd⟩
          exact ⟨r', List.mem_cons_of_mem r hr', hd⟩
  · intro h
    rw [h]
    rfl

/-- Witness for C7: on the two-row dataset with dates 2024-01-02 and
2024-01-01 the range is `(20240101, 20240102)`; the hypotheses of
`c7_get_date_range` hold there. -/
theorem c7_witness :
    ([⟨20240102, some "A", none, none⟩, ⟨20240101, some "A", none, none⟩] : List Row) ≠ [] ∧
    ∃ mn mx,
      get_date_range
          [⟨20240102, some "A", none, none⟩, ⟨20240101, some "A", none, none⟩]
        = some (mn, mx) ∧ mn ≤ mx ∧
      (∀ r ∈ ([⟨20240102, some "A", none, none⟩,
          ⟨20240101, some "A", none, none⟩] : List Row),
        mn ≤ r.date ∧ r.date ≤ mx) ∧
      (∃ r ∈ ([⟨20240102, some "A", none, none⟩,
          ⟨20240101, some "A", none, none⟩] : List Row), r.date = mn) ∧
      (∃ r ∈ ([⟨20240102, some "A", none, none⟩,
          ⟨20240101, some "A", none, none⟩] : List Row), r.date = mx) :=
  ⟨by decide, (c7_get_date_range _).1 (by decide)⟩

/-- Witness for C10: `(2024-01-04, EURUSD, close=null, mcap=7)` with
multiplier 3 surfaces with `marketCap = null`, the source's 7 replaced. -/
theorem c10_witness :
    adjustRow [("EURUSD", (3 : ℚ))] ⟨20240104, some "EURUSD", none, some 7⟩ ∈
      buildRows [⟨20240104, some "EURUSD", none, some 7⟩] [("EURUSD", 3)] ∧
    (adjustRow [("EURUSD", (3 : ℚ))] ⟨20240104, some "EURUSD", none, some 7⟩).marketCap
      = none :=
  c10_null_close_multiplier _ _ _ 3 (by decide) (by decide) (by decide)

theorem mem_tickerRows {rows : List Row} {t : String} {r : Row} :
    r ∈ tickerRows rows t ↔ r ∈ rows ∧ r.ticker = some t := by
  simp [tickerRows, List.mem_filter]

theorem mem_ratioJoin {rows : List Row} {t1 t2 : String} {p : Row × Row} :
    p ∈ ratioJoin rows t1 t2 ↔
      p.1 ∈ tickerRows rows t1 ∧ p.2 ∈ tickerRows rows t2 ∧ p.2.date = p.1.date := by
  unfold ratioJoin
  induction tickerRows rows t1 with
  | nil => simp
  | cons x xs ih =>
    simp only [List.foldr_cons, List.mem_append, List.mem_map, List.mem_filter,
      decide_eq_true_eq, ih, List.mem_cons]
    constructor
    · rintro (⟨r2, ⟨h2, hd⟩, rfl⟩ | ⟨h1, h2, hd⟩)
      · exact ⟨Or.inl rfl, h2, hd⟩
      · exact ⟨Or.inr h1, h2, hd⟩
    · rintro ⟨h1 | h1, h2, hd⟩
      · left
        refine ⟨p.2, ⟨h2, by rw [hd, h1]⟩, ?_⟩
        rw [← h1]
      · exact Or.inr ⟨h1, h2, hd⟩

theorem ratio_output_mem (rows : List Row) (t1 t2 : String) (s e : Date)
    (f : Row × Row → Option ℚ) (d : Date) (v : Option ℚ) :
    (d, v) ∈ ((ratioJoin rows t1 t2).filter fun p =>
        decide (s ≤ p.1.date ∧ p.1.date ≤ e)).map (fun p => (p.1.date, f p)) ↔
    ∃ p, p ∈ ratioJoin rows t1 t2 ∧ p.1.date = d ∧ s ≤ d ∧ d ≤ e ∧ v = f p := by
  simp only [List.mem_map, List.mem_filter, decide_eq_true_eq, Prod.mk.injEq]
  constructor
  · rintro ⟨p, ⟨hp, hs, he⟩, hd, hv⟩
    exact ⟨p, hp, hd, hd ▸ hs, hd ▸ he, hv.symm⟩
  · rintro ⟨p, hp, hd, hs, he, rfl⟩
    exact ⟨p, ⟨hp, hd.symm ▸ hs, hd.symm ▸ he⟩, hd, rfl⟩

theorem ratio_dates_iff (rows : List Row) (t1 t2 : String) (s e : Date)
    (f : Row × Row → Option ℚ) (d : Date) :
    (∃ v, (d, v) ∈ ((ratioJoin rows t1 t2).filter fun p =>
        decide (s ≤ p.1.date ∧ p.1.date ≤ e)).map (fun p => (p.1.date, f p))) ↔
      ((∃ r ∈ rows, r.ticker = some t1 ∧ r.date = d) ∧
       (∃ r ∈ rows, r.ticker = some t2 ∧ r.date = d) ∧ s ≤ d ∧ d ≤ e) := by
  constructor
  · rintro ⟨v, hv⟩
    rcases (ratio_output_mem rows t1 t2 s e f d v).mp hv with ⟨p, hp, hd, hs, he, _⟩
    rcases mem_ratioJoin.mp hp with ⟨h1, h2, hdd⟩
    rcases mem_tickerRows.mp h1 with ⟨h1m, h1t⟩
    rcases mem_tickerRows.mp h2 with ⟨h2m, h2t⟩
    exact ⟨⟨p.1, h1m, h1t, hd⟩, ⟨p.2, h2m, h2t, by rw [hdd, hd]⟩, hs, he⟩
  · rintro ⟨⟨r1, h1m, h1t, h1d⟩, ⟨r2, h2m, h2t, h2d⟩, hs, he⟩
    refine ⟨f (r1, r2), (ratio_output_mem rows t1 t2 s e f d (f (r1, r2))).mpr
      ⟨(r1, r2), mem_ratioJoin.mpr
        ⟨mem_tickerRows.mpr ⟨h1m, h1t⟩, mem_tickerRows.mpr ⟨h2m, h2t⟩, ?_⟩,
       h1d, hs, he, rfl⟩⟩
    rw [h1d, h2d]

theorem ratio_values (rows : List Row) (t1 t2 : String) (s e : Date)
    (f : Row × Row → Option ℚ) (d : Date) (v : Option ℚ)
    (hv : (d, v) ∈ ((ratioJoin rows t1 t2).filter fun p =>
        decide (s ≤ p.1.date ∧ p.1.date ≤ e)).map (fun p => (p.1.date, f p))) :
    ∃ r1 r2, r1 ∈ rows ∧ r2 ∈ rows ∧ r1.ticker = some t1 ∧ r2.ticker = some t2 ∧
      r1.date = d ∧ r2.date = d ∧ v = f (r1, r2) := by
  rcases (ratio_output_mem rows t1 t2 s e f d v).mp hv with ⟨p, hp, hd, _, _, hfv⟩
  rcases mem_ratioJoin.mp hp with ⟨h1, h2, hdd⟩
  rcases mem_tickerRows.mp h1 with ⟨h1m, h1t⟩
  rcases mem_tickerRows.mp h2 with ⟨h2m, h2t⟩
  exact ⟨p.1, p.2, h1m, h2m, h1t, h2t, hd, by rw [hdd, hd], hfv⟩

/-- C3 (amended): for both implementations of `get_ratio`, the
output dates are exactly the intersection of the two tickers' date sets
within the inclusive range (dates present in only one series are
silently excluded).  Each entry's value is the 3-decimal-rounded ratio
`marketCapA / marketCapB` in the `api.py` implementation, but the
3-decimal-rounded ratio `closeA / closeB` in the `query_logic.py`
implementation. -/
theorem c3_ratio_dates_and_values (rows : List Row) (t1 t2 : String) (s e d : Date) :
    ((∃ v, (d, v) ∈ get_ratio_api rows t1 t2 s e) ↔
      ((∃ r ∈ rows, r.ticker = some t1 ∧ r.date = d) ∧
       (∃ r ∈ rows, r.ticker = some t2 ∧ r.date = d) ∧ s ≤ d ∧ d ≤ e)) ∧
    (∀ v, (d, v) ∈ get_ratio_api rows t1 t2 s e →
      ∃ r1 r2, r1 ∈ rows ∧ r2 ∈ rows ∧ r1.ticker = some t1 ∧ r2.ticker = some t2 ∧
        r1.date = d ∧ r2.date = d ∧ v = ratioOf r1.marketCap r2.marketCap) ∧
    ((∃ v, (d, v) ∈ get_ratio rows t1 t2 s e) ↔
      ((∃ r ∈ rows, r.ticker = some t1 ∧ r.date = d) ∧
       (∃ r ∈ rows, r.ticker = some t2 ∧ r.date = d) ∧ s ≤ d ∧ d ≤ e)) ∧
    (∀ v, (d, v) ∈ get_ratio rows t1 t2 s e →
      ∃ r1 r2, r1 ∈ rows ∧ r2 ∈ rows ∧ r1.ticker = some t1 ∧ r2.ticker = some t2 ∧
        r1.date = d ∧ r2.date = d ∧ v = ratioOf r1.close r2.close) :=
  ⟨ratio_dates_iff rows t1 t2 s e (fun p => ratioOf p.1.marketCap p.2.marketCap) d,
   fun v hv => ratio_values rows t1 t2 s e _ d v hv,
   ratio_dates_iff rows t1 t2 s e (fun p => ratioOf p.1.close p.2.close) d,
   fun v hv => ratio_values rows t1 t2 s e _ d v hv⟩

/-- Counterexample for C3: on a dataset where ticker A has
`close = 2, marketCap = 10` and ticker B has `close = 1, marketCap = 4`
on the same date, `query_logic.get_ratio` returns the close ratio
(2.0), which differs from the claim's `marketCapA / marketCapB` rounded
to 3 decimals (2.5). -/
theorem c3_counterexample :
    get_ratio [⟨20240101, some "A", some 2, some 10⟩, ⟨20240101, some "B", some 1, some 4⟩]
        "A" "B" 20240101 20240101
      = [(20240101, ratioOf (some 2) (some 1))] ∧
    ratioOf (some 2) (some 1) = some (roundTo3 (2 / 1)) ∧
    roundTo3 ((2 : ℚ) / 1) ≠ roundTo3 ((10 : ℚ) / 4) := by
  refine ⟨rfl, ?_, ?_⟩
  · norm_num [ratioOf]
  · norm_num [roundTo3]

/-- Witness for C3: on a dataset with A on 2024-01-01 and B on both
2024-01-01 and 2024-01-02, the date 2024-01-01 appears in the API
ratio output, and its entry's value is
`ratioOf marketCapA marketCapB`. -/
theorem c3_witness :
    (∃ v, (20240101, v) ∈ get_ratio_api
      [⟨20240101, some "A", some 2, some 10⟩, ⟨20240101, some "B", some 1, some 4⟩,
       ⟨20240102, some "B", some 1, some 4⟩] "A" "B" 20240101 20240102) ∧
    (∃ r1 r2,
      r1 ∈ [(⟨20240101, some "A", some 2, some 10⟩ : Row),
        ⟨20240101, some "B", some 1, some 4⟩, ⟨20240102, some "B", some 1, some 4⟩] ∧
      r2 ∈ [(⟨20240101, some "A", some 2, some 10⟩ : Row),
        ⟨20240101, some "B", some 1, some 4⟩, ⟨20240102, some "B", some 1, some 4⟩] ∧
      r1.ticker = some "A" ∧ r2.ticker = some "B" ∧ r1.date = 20240101 ∧
      r2.date = 20240101 ∧
      ratioOf (some 10) (some 4) = ratioOf r1.marketCap r2.marketCap) :=
  ⟨(c3_ratio_dates_and_values _ "A" "B" 20240101 20240102 20240101).1.mpr (by decide),
   (c3_ratio_dates_and_values _ "A" "B" 20240101 20240102 20240101).2.1
     (ratioOf (some 10) (some 4)) (List.mem_singleton.mpr rfl)⟩

theorem parseRows_mem (src : CsvSource) :
    ∀ (l : List CsvRawRow) (out : List Row), src.parseRows l = some out →
      ∀ r ∈ out, ∃ raw ∈ l, ∃ d, parseDate raw.dateStr = some d ∧
        r = src.rowOfRaw d raw := by
  intro l
  induction l with
  | nil =>
    intro out h r hr
    rw [CsvSource.parseRows] at h
    cases h
    simp at hr
  | cons x xs ih =>
    intro out h r hr
    rw [CsvSource.parseRows] at h
    cases hpd : parseDate x.dateStr with
    | none => rw [hpd] at h; exact absurd h (by simp)
    | some d =>
      cases hrest : src.parseRows xs with
      | none => rw [hpd, hrest] at h; exact absurd h (by simp)
      | some restOut =>
        rw [hpd, hrest] at h
        injection h with h
        subst h
        rcases List.mem_cons.mp hr with rfl | hr
        · exact ⟨x, List.mem_cons_self x xs, d, hpd, rfl⟩
        · rcases ih restOut hrest r hr with ⟨raw, hraw, d', hp, he⟩
          exact ⟨raw, List.mem_cons_of_mem x hraw, d', hp, he⟩

/-- C4 (amended): the Row Source never derives `Ticker` from the
file's base name.  The rows a CSV file yields are the same whatever the
file is called, and each row's `Ticker` comes from the file's own
`Ticker` column when the source schema has one and is null for every
row when it does not. -/
theorem c4_ticker_not_from_stem (src : CsvSource) (f : CsvFile) (stem2 : String)
    (out : List Row) :
    src.fileRows f = src.fileRows ⟨stem2, f.rows⟩ ∧
    (src.fileRows f = some out → ∀ r ∈ out, ∃ raw ∈ f.rows,
      r.ticker = if src.hasTicker then raw.ticker else none) := by
  refine ⟨rfl, fun hout r hr => ?_⟩
  rcases parseRows_mem src f.rows out hout r hr with ⟨raw, hraw, d, _, he⟩
  exact ⟨raw, hraw, by rw [he]; rfl⟩

/-- Counterexample for C4: a CSV source without a `Ticker` column and a
file named `AAPL` yields a row whose ticker is null, not `"AAPL"` — the
stem never reaches the data. -/
theorem c4_counterexample :
    CsvSource.fileRows ⟨false, true, true, [⟨"AAPL", [⟨"2024-01-02", none, some 1, none⟩]⟩]⟩
        ⟨"AAPL", [⟨"2024-01-02", none, some 1, none⟩]⟩
      = some [⟨20240102, none, some 1, none⟩] ∧
    (none : Option String) ≠ some "AAPL" := by
  exact ⟨by decide, by decide⟩

/-- Witness for C4: with a `Ticker` column present, a file named `AAPL`
containing a row whose content says `MSFT` yields ticker `MSFT`; the
rows are unchanged if the file is renamed. -/
theorem c4_witness :
    CsvSource.fileRows ⟨true, true, true, [⟨"AAPL", [⟨"2024-01-02", some "MSFT", some 1, none⟩]⟩]⟩
        ⟨"AAPL", [⟨"2024-01-02", some "MSFT", some 1, none⟩]⟩
      = CsvSource.fileRows ⟨true, true, true, [⟨"AAPL", [⟨"2024-01-02", some "MSFT", some 1, none⟩]⟩]⟩
        ⟨"OTHER", [⟨"2024-01-02", some "MSFT", some 1, none⟩]⟩ ∧
    ∀ r ∈ ([⟨20240102, some "MSFT", some 1, none⟩] : List Row),
      ∃ raw ∈ [(⟨"2024-01-02", some "MSFT", some 1, none⟩ : CsvRawRow)],
        r.ticker = if (⟨true, true, true,
            [⟨"AAPL", [⟨"2024-01-02", some "MSFT", some 1, none⟩]⟩]⟩ : CsvSource).hasTicker
          then raw.ticker else none :=
  ⟨(c4_ticker_not_from_stem _ _ "OTHER" [⟨20240102, some "MSFT", some 1, none⟩]).1,
   (c4_ticker_not_from_stem _ ⟨"AAPL", [⟨"2024-01-02", some "MSFT", some 1, none⟩]⟩
      "OTHER" [⟨20240102, some "MSFT", some 1, none⟩]).2 (by decide)⟩

/-- C8 (amended): a missing or malformed currency configuration
fails the eager build, the error propagates, and the cache slot stays
unbuilt, so the next query re-runs the build.  A source parse error
instead surfaces when a query collects the lazy plan: the error
propagates to the caller, but the plan has already been cached —
subsequent queries reuse it, re-scan the sources, and hit the same
error without re-running the eager build. -/
theorem c8_build_error_caching (env : Env) :
    (env.config = none →
      queryStep env none = (none, Except.error "ConfigurationError")) ∧
    (∀ tbl, env.config = some tbl → env.csv.collectRows = none →
      queryStep env none =
        (some ⟨env.parquet, env.csv, tbl⟩, Except.error "SourceParseError") ∧
      queryStep env (some ⟨env.parquet, env.csv, tbl⟩) =
        (some ⟨env.parquet, env.csv, tbl⟩, Except.error "SourceParseError")) := by
  constructor
  · intro h
    simp [queryStep, buildPlan, h]
  · intro tbl hc hp
    have hcol : Plan.collect ⟨env.parquet, env.csv, tbl⟩ = Except.error "SourceParseError" := by
      simp [Plan.collect, hp]
    constructor
    · simp [queryStep, buildPlan, hc, hcol]
    · simp [queryStep, hcol]

/-- Counterexample for C8: with a well-formed configuration and a CSV
file holding an unparsable date, the first query propagates the parse
error but the cache slot is *built* afterwards (it holds the lazy
plan), contradicting the claim that it remains unbuilt. -/
theorem c8_counterexample :
    (queryStep
      ⟨⟨true, true, true, []⟩,
       ⟨true, true, true, [⟨"X", [⟨"bad", some "X", some 1, none⟩]⟩]⟩,
       some []⟩ none).1 ≠ none ∧
    (queryStep
      ⟨⟨true, true, true, []⟩,
       ⟨true, true, true, [⟨"X", [⟨"bad", some "X", some 1, none⟩]⟩]⟩,
       some []⟩ none).2 = Except.error "SourceParseError" := by
  constructor
  · intro h
    exact Option.noConfusion h
  · rfl

/-- Witness for C8: a missing configuration leaves the cache unbuilt
with a `ConfigurationError`; a bad CSV date caches the plan and yields
a `SourceParseError` on this and every later query. -/
theorem c8_witness :
    queryStep ⟨⟨true, true, true, []⟩, ⟨true, true, true, []⟩, none⟩ none
      = (none, Except.error "ConfigurationError") ∧
    (queryStep
        ⟨⟨true, true, true, []⟩,
         ⟨true, true, true, [⟨"X", [⟨"bad", some "X", some 1, none⟩]⟩]⟩,
         some []⟩ none =
      (some ⟨⟨true, true, true, []⟩,
         ⟨true, true, true, [⟨"X", [⟨"bad", some "X", some 1, none⟩]⟩]⟩, []⟩,
       Except.error "SourceParseError") ∧
     queryStep
        ⟨⟨true, true, true, []⟩,
         ⟨true, true, true, [⟨"X", [⟨"bad", some "X", some 1, none⟩]⟩]⟩,
         some []⟩
        (some ⟨⟨true, true, true, []⟩,
          ⟨true, true, true, [⟨"X", [⟨"bad", some "X", some 1, none⟩]⟩]⟩, []⟩) =
      (some ⟨⟨true, true, true, []⟩,
         ⟨true, true, true, [⟨"X", [⟨"bad", some "X", some 1, none⟩]⟩]⟩, []⟩,
       Except.error "SourceParseError")) :=
  ⟨(c8_build_error_caching _).1 rfl,
   (c8_build_error_caching _).2 [] rfl (by decide)⟩

end MarketTracker
